import Mathlib

/-!
# go-api-explorer: the `/api` relay handler

A shallow embedding of `apiHandler` (src/main.go, lines 87-142) together with the
parts of the Go standard library whose behaviour decides what the handler
answers:

* `encoding/json`: the byte-level scanner (`scanner.go`), `Decoder.readValue`
  and `Decoder.Decode` (`stream.go`), and the unmarshalling of one JSON value into
  the struct `apiRequest` (`decode.go`), specialised to its three string fields;
* `net/http`: `Header.Set`, `Header.Del`, `ResponseWriter.WriteHeader`,
  `ResponseWriter.Write`, `http.Error`, `validMethod` and `http.NewRequest`.

`http.NewRequest` is modelled from its source; what it calls (`url.Parse`,
`strconv.Quote`) and `(*http.Client).Do`, which talks to the network, are
parameters of the model (`Env`).

Go strings and byte slices are both sequences of bytes, and both are `Bytes`
here.
-/

namespace GoApiExplorer

/-- A Go `string` or `[]byte`: a finite sequence of bytes. -/
abbrev Bytes := List UInt8

/-- The bytes of a Go string literal (Go source text is UTF-8). -/
def str (s : String) : Bytes := s.data.flatMap String.utf8EncodeChar

/-! ## encoding/json: scanner.go -/

/-- The opcodes returned by the scanner's step functions (`scanContinue` ... `scanError`). -/
inductive Op where
  | scanContinue
  | scanBeginLiteral
  | scanBeginObject
  | scanObjectKey
  | scanObjectValue
  | scanEndObject
  | scanBeginArray
  | scanArrayValue
  | scanEndArray
  | scanSkipSpace
  | scanEnd
  | scanError
  deriving DecidableEq, Repr

/-- The entries of `scanner.parseState`. -/
inductive ParseState where
  | parseObjectKey
  | parseObjectValue
  | parseArrayValue
  deriving DecidableEq, Repr

/-- The value of `scanner.step`: which state function runs on the next byte. -/
inductive StepFn where
  | stateBeginValueOrEmpty
  | stateBeginValue
  | stateBeginStringOrEmpty
  | stateBeginString
  | stateEndValue
  | stateEndTop
  | stateInString
  | stateInStringEsc
  | stateInStringEscU
  | stateInStringEscU1
  | stateInStringEscU12
  | stateInStringEscU123
  | stateNeg
  | state1
  | state0
  | stateDot
  | stateDot0
  | stateE
  | stateESign
  | stateE0
  | stateT
  | stateTr
  | stateTru
  | stateF
  | stateFa
  | stateFal
  | stateFals
  | stateN
  | stateNu
  | stateNul
  | stateError
  deriving DecidableEq, Repr

/-- The Go `scanner` struct. `parseState` is a stack whose top is the head of the
list; `err` records whether `scanner.err` is non-nil. -/
structure scanner where
  step : StepFn
  endTop : Bool
  parseState : List ParseState
  err : Bool
  deriving DecidableEq, Repr

/-- The constant `maxNestingDepth`. -/
def maxNestingDepth : Nat := 10000

/-- The method `scanner.reset`. -/
def scanner.reset : scanner :=
  { step := .stateBeginValue, endTop := false, parseState := [], err := false }

/-- The method `scanner.error`: record a syntax error, return `scanError`. -/
def scanner.error (s : scanner) : scanner × Op :=
  ({ s with step := .stateError, err := true }, .scanError)

/-- The method `scanner.pushParseState`. -/
def scanner.pushParseState (s : scanner) (newParseState : ParseState) (successState : Op) :
    scanner × Op :=
  let s1 := { s with parseState := newParseState :: s.parseState }
  if s1.parseState.length ≤ maxNestingDepth then (s1, successState) else s1.error

/-- The method `scanner.popParseState`. -/
def scanner.popParseState (s : scanner) : scanner :=
  let ps := s.parseState.tail
  if ps.length = 0 then { s with parseState := ps, step := .stateEndTop, endTop := true }
  else { s with parseState := ps, step := .stateEndValue }

/-- The function `isSpace`. -/
def isSpace (c : UInt8) : Bool := c == 32 || c == 9 || c == 13 || c == 10

/-- Whether `c` is an ASCII decimal digit. -/
def isDigit (c : UInt8) : Bool := 48 ≤ c && c ≤ 57

/-- Whether `c` is an ASCII hexadecimal digit. -/
def isHex (c : UInt8) : Bool :=
  (48 ≤ c && c ≤ 57) || (97 ≤ c && c ≤ 102) || (65 ≤ c && c ≤ 70)

/-- The function `stateEndTop`: a non-space byte after the top-level value records
an error, but the opcode is `scanEnd` either way. -/
def stateEndTop (s : scanner) (c : UInt8) : scanner × Op :=
  if !isSpace c then ((s.error).1, .scanEnd) else (s, .scanEnd)

/-- The function `stateEndValue`. -/
def stateEndValue (s : scanner) (c : UInt8) : scanner × Op :=
  match s.parseState with
  | [] => stateEndTop { s with step := .stateEndTop, endTop := true } c
  | ps :: rest =>
    if isSpace c then ({ s with step := .stateEndValue }, .scanSkipSpace)
    else
      match ps with
      | .parseObjectKey =>
        if c == 58 then
          ({ s with parseState := .parseObjectValue :: rest, step := .stateBeginValue },
            .scanObjectKey)
        else s.error
      | .parseObjectValue =>
        if c == 44 then
          ({ s with parseState := .parseObjectKey :: rest, step := .stateBeginString },
            .scanObjectValue)
        else if c == 125 then (s.popParseState, .scanEndObject)
        else s.error
      | .parseArrayValue =>
        if c == 44 then ({ s with step := .stateBeginValue }, .scanArrayValue)
        else if c == 93 then (s.popParseState, .scanEndArray)
        else s.error

/-- The function `stateBeginValue`. -/
def stateBeginValue (s : scanner) (c : UInt8) : scanner × Op :=
  if isSpace c then (s, .scanSkipSpace)
  else if c == 123 then
    scanner.pushParseState { s with step := .stateBeginStringOrEmpty } .parseObjectKey
      .scanBeginObject
  else if c == 91 then
    scanner.pushParseState { s with step := .stateBeginValueOrEmpty } .parseArrayValue
      .scanBeginArray
  else if c == 34 then ({ s with step := .stateInString }, .scanBeginLiteral)
  else if c == 45 then ({ s with step := .stateNeg }, .scanBeginLiteral)
  else if c == 48 then ({ s with step := .state0 }, .scanBeginLiteral)
  else if c == 116 then ({ s with step := .stateT }, .scanBeginLiteral)
  else if c == 102 then ({ s with step := .stateF }, .scanBeginLiteral)
  else if c == 110 then ({ s with step := .stateN }, .scanBeginLiteral)
  else if 49 ≤ c && c ≤ 57 then ({ s with step := .state1 }, .scanBeginLiteral)
  else s.error

/-- The function `stateBeginValueOrEmpty`. -/
def stateBeginValueOrEmpty (s : scanner) (c : UInt8) : scanner × Op :=
  if isSpace c then (s, .scanSkipSpace)
  else if c == 93 then stateEndValue s c
  else stateBeginValue s c

/-- The function `stateBeginString`. -/
def stateBeginString (s : scanner) (c : UInt8) : scanner × Op :=
  if isSpace c then (s, .scanSkipSpace)
  else if c == 34 then ({ s with step := .stateInString }, .scanBeginLiteral)
  else s.error

/-- The function `stateBeginStringOrEmpty`. -/
def stateBeginStringOrEmpty (s : scanner) (c : UInt8) : scanner × Op :=
  if isSpace c then (s, .scanSkipSpace)
  else if c == 125 then
    stateEndValue { s with parseState := .parseObjectValue :: s.parseState.tail } c
  else stateBeginString s c

/-- The function `stateInString`. -/
def stateInString (s : scanner) (c : UInt8) : scanner × Op :=
  if c == 34 then ({ s with step := .stateEndValue }, .scanContinue)
  else if c == 92 then ({ s with step := .stateInStringEsc }, .scanContinue)
  else if c < 32 then s.error
  else (s, .scanContinue)

/-- The function `stateInStringEsc`. -/
def stateInStringEsc (s : scanner) (c : UInt8) : scanner × Op :=
  if c == 98 || c == 102 || c == 110 || c == 114 || c == 116 || c == 92 || c == 47 || c == 34
  then ({ s with step := .stateInString }, .scanContinue)
  else if c == 117 then ({ s with step := .stateInStringEscU }, .scanContinue)
  else s.error

/-- The functions `stateInStringEscU`, `...U1`, `...U12`, `...U123`: one hexadecimal
digit, then on to `next`. -/
def stateHexDigit (next : StepFn) (s : scanner) (c : UInt8) : scanner × Op :=
  if isHex c then ({ s with step := next }, .scanContinue) else s.error

/-- The function `state0`. -/
def state0 (s : scanner) (c : UInt8) : scanner × Op :=
  if c == 46 then ({ s with step := .stateDot }, .scanContinue)
  else if c == 101 || c == 69 then ({ s with step := .stateE }, .scanContinue)
  else stateEndValue s c

/-- The function `state1`. -/
def state1 (s : scanner) (c : UInt8) : scanner × Op :=
  if isDigit c then ({ s with step := .state1 }, .scanContinue) else state0 s c

/-- The function `stateNeg`. -/
def stateNeg (s : scanner) (c : UInt8) : scanner × Op :=
  if c == 48 then ({ s with step := .state0 }, .scanContinue)
  else if 49 ≤ c && c ≤ 57 then ({ s with step := .state1 }, .scanContinue)
  else s.error

/-- The function `stateDot`. -/
def stateDot (s : scanner) (c : UInt8) : scanner × Op :=
  if isDigit c then ({ s with step := .stateDot0 }, .scanContinue) else s.error

/-- The function `stateDot0`. -/
def stateDot0 (s : scanner) (c : UInt8) : scanner × Op :=
  if isDigit c then (s, .scanContinue)
  else if c == 101 || c == 69 then ({ s with step := .stateE }, .scanContinue)
  else stateEndValue s c

/-- The function `stateESign`. -/
def stateESign (s : scanner) (c : UInt8) : scanner × Op :=
  if isDigit c then ({ s with step := .stateE0 }, .scanContinue) else s.error

/-- The function `stateE`. -/
def stateE (s : scanner) (c : UInt8) : scanner × Op :=
  if c == 43 || c == 45 then ({ s with step := .stateESign }, .scanContinue)
  else stateESign s c

/-- The function `stateE0`. -/
def stateE0 (s : scanner) (c : UInt8) : scanner × Op :=
  if isDigit c then (s, .scanContinue) else stateEndValue s c

/-- The functions `stateT` ... `stateNu`: the next letter of `true`, `false` or
`null`, then on to `next`. -/
def stateLetter (want : UInt8) (next : StepFn) (s : scanner) (c : UInt8) : scanner × Op :=
  if c == want then ({ s with step := next }, .scanContinue) else s.error

/-- The call `s.step(s, c)`: run the state function stored in `s.step`. -/
def scanner.stepByte (s : scanner) (c : UInt8) : scanner × Op :=
  match s.step with
  | .stateBeginValueOrEmpty => stateBeginValueOrEmpty s c
  | .stateBeginValue => stateBeginValue s c
  | .stateBeginStringOrEmpty => stateBeginStringOrEmpty s c
  | .stateBeginString => stateBeginString s c
  | .stateEndValue => stateEndValue s c
  | .stateEndTop => stateEndTop s c
  | .stateInString => stateInString s c
  | .stateInStringEsc => stateInStringEsc s c
  | .stateInStringEscU => stateHexDigit .stateInStringEscU1 s c
  | .stateInStringEscU1 => stateHexDigit .stateInStringEscU12 s c
  | .stateInStringEscU12 => stateHexDigit .stateInStringEscU123 s c
  | .stateInStringEscU123 => stateHexDigit .stateInString s c
  | .stateNeg => stateNeg s c
  | .state1 => state1 s c
  | .state0 => state0 s c
  | .stateDot => stateDot s c
  | .stateDot0 => stateDot0 s c
  | .stateE => stateE s c
  | .stateESign => stateESign s c
  | .stateE0 => stateE0 s c
  | .stateT => stateLetter 114 .stateTr s c
  | .stateTr => stateLetter 117 .stateTru s c
  | .stateTru => stateLetter 101 .stateEndValue s c
  | .stateF => stateLetter 97 .stateFa s c
  | .stateFa => stateLetter 108 .stateFal s c
  | .stateFal => stateLetter 115 .stateFals s c
  | .stateFals => stateLetter 101 .stateEndValue s c
  | .stateN => stateLetter 117 .stateNu s c
  | .stateNu => stateLetter 108 .stateNul s c
  | .stateNul => stateLetter 108 .stateEndValue s c
  | .stateError => (s, .scanError)

/-- The method `scanner.eof`: the opcode at the end of the input. -/
def scanner.eof (s : scanner) : Op :=
  if s.err then .scanError
  else if s.endTop then .scanEnd
  else
    let s1 := (s.stepByte 32).1
    if s1.endTop then .scanEnd else .scanError

/-- The function `checkValid` behind `json.Valid`: the whole byte sequence is one
JSON value, with optional white space around it. -/
def checkValidFrom (s : scanner) : Bytes → Bool
  | [] => s.eof != .scanError
  | c :: rest =>
    match s.stepByte c with
    | (_, .scanError) => false
    | (s1, _) => checkValidFrom s1 rest

/-- The function `json.Valid`. -/
def Valid (data : Bytes) : Bool := checkValidFrom scanner.reset data

/-! ## unicode/utf8 and unicode/utf16 -/

/-- The constant `utf8.RuneError` (also `unicode.ReplacementChar`), U+FFFD. -/
def RuneError : Nat := 0xFFFD

/-- The table `utf8.first` with `acceptRanges`, for lead bytes of multi-byte
sequences: the sequence's size and the accepted range of its second byte.
`none` is the table's `xx` (invalid lead byte); ASCII is handled by the caller. -/
def first (b : UInt8) : Option (Nat × UInt8 × UInt8) :=
  if 0xC2 ≤ b && b ≤ 0xDF then some (2, 0x80, 0xBF)
  else if b == 0xE0 then some (3, 0xA0, 0xBF)
  else if 0xE1 ≤ b && b ≤ 0xEC then some (3, 0x80, 0xBF)
  else if b == 0xED then some (3, 0x80, 0x9F)
  else if 0xEE ≤ b && b ≤ 0xEF then some (3, 0x80, 0xBF)
  else if b == 0xF0 then some (4, 0x90, 0xBF)
  else if 0xF1 ≤ b && b ≤ 0xF3 then some (4, 0x80, 0xBF)
  else if b == 0xF4 then some (4, 0x80, 0x8F)
  else none

/-- Whether `b` is a UTF-8 continuation byte (`locb ≤ b ≤ hicb`). -/
def isCont (b : UInt8) : Bool := 0x80 ≤ b && b ≤ 0xBF

/-- The function `utf8.DecodeRune`: the rune at the start of `p` and its width in
bytes; `(RuneError, 1)` for an invalid encoding, `(RuneError, 0)` for empty `p`.
The masks `p0&mask2`, `b&maskx` are written as remainders. -/
def DecodeRune (p : Bytes) : Nat × Nat :=
  match p with
  | [] => (RuneError, 0)
  | p0 :: t =>
    if p0 < 0x80 then (p0.toNat, 1)
    else
      match first p0 with
      | none => (RuneError, 1)
      | some (sz, lo, hi) =>
        if p.length < sz then (RuneError, 1)
        else
          match t with
          | [] => (RuneError, 1)
          | b1 :: t1 =>
            if b1 < lo || hi < b1 then (RuneError, 1)
            else if sz ≤ 2 then ((p0.toNat % 32) * 64 + b1.toNat % 64, 2)
            else
              match t1 with
              | [] => (RuneError, 1)
              | b2 :: t2 =>
                if !isCont b2 then (RuneError, 1)
                else if sz ≤ 3 then
                  ((p0.toNat % 16) * 4096 + (b1.toNat % 64) * 64 + b2.toNat % 64, 3)
                else
                  match t2 with
                  | [] => (RuneError, 1)
                  | b3 :: _ =>
                    if !isCont b3 then (RuneError, 1)
                    else
                      ((p0.toNat % 8) * 262144 + (b1.toNat % 64) * 4096
                        + (b2.toNat % 64) * 64 + b3.toNat % 64, 4)

/-- The function `utf8.EncodeRune`: the UTF-8 bytes of rune `r`; a surrogate or a
value above `MaxRune` is encoded as `RuneError`. -/
def EncodeRune (r : Nat) : Bytes :=
  if r ≤ 0x7F then [UInt8.ofNat r]
  else if r ≤ 0x7FF then [UInt8.ofNat (0xC0 + r / 64), UInt8.ofNat (0x80 + r % 64)]
  else if r > 0x10FFFF || (0xD800 ≤ r && r ≤ 0xDFFF) then [0xEF, 0xBF, 0xBD]
  else if r ≤ 0xFFFF then
    [UInt8.ofNat (0xE0 + r / 4096), UInt8.ofNat (0x80 + r / 64 % 64), UInt8.ofNat (0x80 + r % 64)]
  else
    [UInt8.ofNat (0xF0 + r / 262144), UInt8.ofNat (0x80 + r / 4096 % 64),
      UInt8.ofNat (0x80 + r / 64 % 64), UInt8.ofNat (0x80 + r % 64)]

/-- The function `utf16.IsSurrogate`. -/
def IsSurrogate (r : Nat) : Bool := 0xD800 ≤ r && r < 0xE000

/-- The function `utf16.DecodeRune`, its second argument `none` when `getu4`
returned -1. -/
def utf16DecodeRune (r1 : Nat) (r2 : Option Nat) : Nat :=
  match r2 with
  | none => RuneError
  | some r2 =>
    if 0xD800 ≤ r1 && r1 < 0xDC00 && 0xDC00 ≤ r2 && r2 < 0xE000 then
      (r1 - 0xD800) * 1024 + (r2 - 0xDC00) + 0x10000
    else RuneError

/-! ## encoding/json: decode.go -/

/-- The value of one hexadecimal digit, as in the loop of `getu4`. -/
def hexVal (c : UInt8) : Option Nat :=
  if 48 ≤ c && c ≤ 57 then some (c.toNat - 48)
  else if 97 ≤ c && c ≤ 102 then some (c.toNat - 97 + 10)
  else if 65 ≤ c && c ≤ 70 then some (c.toNat - 65 + 10)
  else none

/-- The function `getu4`: the rune of a `\uXXXX` escape at the start of `s`;
`none` is Go's -1. -/
def getu4 (s : Bytes) : Option Nat :=
  match s with
  | 92 :: 117 :: a :: b :: c :: d :: _ =>
    match hexVal a, hexVal b, hexVal c, hexVal d with
    | some a, some b, some c, some d => some (((a * 16 + b) * 16 + c) * 16 + d)
    | _, _, _, _ => none
  | _ => none

/-- One round of the main loop of `unquoteBytes` at the start of `s`: the bytes
written and the number of bytes of `s` consumed; `none` is the loop's bare
`return` (`ok == false`). -/
def unquoteStep (s : Bytes) : Option (Bytes × Nat) :=
  match s with
  | [] => none
  | c :: rest =>
    if c == 92 then
      match rest with
      | [] => none
      | e :: _ =>
        if e == 34 || e == 92 || e == 47 || e == 39 then some ([e], 2)
        else if e == 98 then some ([8], 2)
        else if e == 102 then some ([12], 2)
        else if e == 110 then some ([10], 2)
        else if e == 114 then some ([13], 2)
        else if e == 116 then some ([9], 2)
        else if e == 117 then
          match getu4 s with
          | none => none
          | some rr =>
            if IsSurrogate rr then
              let dec := utf16DecodeRune rr (getu4 (s.drop 6))
              if dec ≠ RuneError then some (EncodeRune dec, 12)
              else some (EncodeRune RuneError, 6)
            else some (EncodeRune rr, 6)
        else none
    else if c == 34 || c < 32 then none
    else if c < 0x80 then some ([c], 1)
    else
      let (rr, size) := DecodeRune s
      some (EncodeRune rr, size)

/-- The main loop of `unquoteBytes` over the text between the quotes; `skip` counts
the bytes already consumed by the round before. -/
def unquoteLoop : Nat → Bytes → Option Bytes
  | _, [] => some []
  | k + 1, _ :: rest => unquoteLoop k rest
  | 0, c :: rest =>
    match unquoteStep (c :: rest) with
    | none => none
    | some (out, n) => (unquoteLoop (n - 1) rest).map (fun t => out ++ t)

/-- The function `unquoteBytes`: the string value of a quoted JSON string
literal. Go first scans for a prefix that needs no rewriting and copies it; the
main loop copies such bytes unchanged too, so the loop alone gives the result. -/
def unquoteBytes (s : Bytes) : Option Bytes :=
  if s.length < 2 || s.head? != some 34 || s.getLast? != some 34 then none
  else unquoteLoop 0 s.tail.dropLast

/-- The errors `Decoder.Decode` can return for an `apiRequest` target. -/
inductive DecodeError where
  | SyntaxError
  | EOF
  | ErrUnexpectedEOF
  | UnmarshalTypeError
  deriving DecidableEq, Repr

/-- The function `nonSpace` of stream.go. -/
def nonSpace (b : Bytes) : Bool := b.any (fun c => !isSpace c)

/-- The method `Decoder.readValue` on a decoder whose stream holds exactly `buf`:
the number of bytes up to the end of the first JSON value. Bytes after that
value are not looked at (at most the one byte that ends a number or literal). -/
def readValueFrom (buf : Bytes) (s : scanner) : Bytes → Nat → Except DecodeError Nat
  | [], n =>
    if (s.stepByte 32).2 = .scanEnd then .ok n
    else if nonSpace buf then .error .ErrUnexpectedEOF
    else .error .EOF
  | c :: rest, n =>
    match s.stepByte c with
    | (_, .scanEnd) => .ok n
    | (_, .scanError) => .error .SyntaxError
    | (s1, .scanEndObject) =>
      match stateEndValue s1 32 with
      | (_, .scanEnd) => .ok (n + 1)
      | (s2, _) => readValueFrom buf s2 rest (n + 1)
    | (s1, .scanEndArray) =>
      match stateEndValue s1 32 with
      | (_, .scanEnd) => .ok (n + 1)
      | (s2, _) => readValueFrom buf s2 rest (n + 1)
    | (s1, _) => readValueFrom buf s1 rest (n + 1)

/-- The method `Decoder.readValue`, from a fresh scanner. -/
def readValue (buf : Bytes) : Except DecodeError Nat :=
  readValueFrom buf scanner.reset buf 0

/-- Where the traversal of a top-level object is: between tokens, inside a member's
key, inside a member's literal value (string, number, `true`, `false`, `null`),
or inside a member's object or array value. -/
inductive WalkMode where
  | idle
  | inKey
  | inLiteral
  | inNested
  deriving DecidableEq, Repr

/-- The part of `decodeState` used while `decodeState.object` walks a top-level
object: the scanner, the text of the token being read (`item`), the last key
read, and the members read so far as raw (key, value) texts in input order. -/
structure decodeState where
  scan : scanner
  mode : WalkMode
  item : Bytes
  key : Bytes
  members : List (Bytes × Bytes)

/-- One byte of the walk of `decodeState.object` (`scanWhile`, `rescanLiteral`, `skip`).
A literal ends before the first byte whose opcode is not `scanContinue`; an
object or array value ends with the bracket that brings the nesting depth back
to one. Only tokens directly inside the top-level object are recorded. -/
def decodeState.next (d : decodeState) (c : UInt8) : decodeState :=
  let direct := d.scan.parseState.length == 1
  let top := d.scan.parseState.head?
  let (s1, op) := d.scan.stepByte c
  match d.mode with
  | .inKey =>
    if op = .scanContinue then { d with scan := s1, item := d.item ++ [c] }
    else { d with scan := s1, mode := .idle, key := d.item, item := [] }
  | .inLiteral =>
    if op = .scanContinue then { d with scan := s1, item := d.item ++ [c] }
    else
      { d with scan := s1, mode := .idle, members := d.members ++ [(d.key, d.item)], item := [] }
  | .inNested =>
    if (op = .scanEndObject || op = .scanEndArray) && s1.parseState.length == 1 then
      { d with scan := s1, mode := .idle, members := d.members ++ [(d.key, d.item ++ [c])],
               item := [] }
    else { d with scan := s1, item := d.item ++ [c] }
  | .idle =>
    if direct then
      match op with
      | .scanBeginLiteral =>
        if top = some .parseObjectKey then { d with scan := s1, mode := .inKey, item := [c] }
        else { d with scan := s1, mode := .inLiteral, item := [c] }
      | .scanBeginObject => { d with scan := s1, mode := .inNested, item := [c] }
      | .scanBeginArray => { d with scan := s1, mode := .inNested, item := [c] }
      | _ => { d with scan := s1 }
    else { d with scan := s1 }

/-- The members of the JSON object `data`, as raw (key, value) texts in input
order. -/
def objectMembers (data : Bytes) : List (Bytes × Bytes) :=
  (data.foldl decodeState.next
    { scan := scanner.reset, mode := .idle, item := [], key := [], members := [] }).members

/-- The struct `apiRequest` (src/main.go, lines 36-40). -/
structure apiRequest where
  Method : Bytes
  URL : Bytes
  Body : Bytes
  deriving DecidableEq, Repr

/-- The fields of `apiRequest`. -/
inductive Field where
  | Method
  | URL
  | Body
  deriving DecidableEq, Repr

/-- The function `foldName` on ASCII: lower-case letters become upper-case. Go folds
other runes by Unicode simple case folding; the only ones folding to an ASCII
letter fold to `K` or `S`, which no field name of `apiRequest` contains, so
whether a key equals a folded field name is decided by the ASCII rule. -/
def foldName (b : Bytes) : Bytes := b.map (fun c => if 97 ≤ c && c ≤ 122 then c - 32 else c)

/-- The field lookup of `decodeState.object`: the field whose `json` tag is `key`,
else the field whose tag equals `key` up to case. -/
def findField (key : Bytes) : Option Field :=
  if key = str "method" then some .Method
  else if key = str "url" then some .URL
  else if key = str "body" then some .Body
  else if foldName key = str "METHOD" then some .Method
  else if foldName key = str "URL" then some .URL
  else if foldName key = str "BODY" then some .Body
  else none

/-- Assignment to one field (`v.SetString`). -/
def apiRequest.set (req : apiRequest) (f : Field) (v : Bytes) : apiRequest :=
  match f with
  | .Method => { req with Method := v }
  | .URL => { req with URL := v }
  | .Body => { req with Body := v }

/-- One member of the object stored into `apiRequest` (`decodeState.object` calling
`decodeState.value`, `literalStore`, `array`, `object` on a string field). The
second component is `d.savedError != nil`. A key that matches no field is
skipped; `null` leaves a string field unchanged; a string is unquoted and
stored; any other value saves an `UnmarshalTypeError`. Go panics if a scanned
literal fails to unquote, which the scanner rules out; those branches leave
the state unchanged. -/
def storeMember (st : apiRequest × Bool) (m : Bytes × Bytes) : apiRequest × Bool :=
  match unquoteBytes m.1 with
  | none => st
  | some key =>
    match findField key with
    | none => st
    | some f =>
      match m.2.head? with
      | some 110 => st
      | some 34 =>
        match unquoteBytes m.2 with
        | none => st
        | some v => (st.1.set f v, st.2)
      | _ => (st.1, true)

/-- The method `decodeState.unmarshal` for a pointer to a zero `apiRequest`, on the
text `data` of one scanned JSON value: the struct afterwards and whether an
error was saved. An object is stored member by member, `null` changes nothing,
every other kind of value is an `UnmarshalTypeError`. -/
def unmarshal (data : Bytes) : apiRequest × Bool :=
  let zero : apiRequest := { Method := [], URL := [], Body := [] }
  match data.dropWhile isSpace with
  | [] => (zero, true)
  | c :: _ =>
    if c == 123 then (objectMembers data).foldl storeMember (zero, false)
    else if c == 110 then (zero, false)
    else (zero, true)

/-- The call `json.NewDecoder(r.Body).Decode(&req)` with `req` the zero `apiRequest`
and `body` everything `r.Body` yields: read the first JSON value of the stream,
unmarshal it. On error the handler does not look at `req`, so only the error
is returned. -/
def Decode (body : Bytes) : Except DecodeError apiRequest :=
  match readValue body with
  | .error e => .error e
  | .ok n =>
    let res := unmarshal (body.take n)
    if res.2 then .error .UnmarshalTypeError else .ok res.1

/-! ## net/http -/

/-- The type `http.Header`, restricted to what the handler does with it: every key
holds at most one value. Keys are written in canonical form in the source. -/
abbrev Header := List (Bytes × Bytes)

/-- The method `Header.Del`. -/
def Header.Del (h : Header) (key : Bytes) : Header := h.filter (fun kv => kv.1 != key)

/-- The method `Header.Set`: replace any value of `key`. -/
def Header.Set (h : Header) (key value : Bytes) : Header := Header.Del h key ++ [(key, value)]

/-- The method `Header.Get`: the value of `key`, empty when absent. -/
def Header.Get (h : Header) (key : Bytes) : Bytes :=
  match h.find? (fun kv => kv.1 == key) with
  | some kv => kv.2
  | none => []

/-- The server's `http.ResponseWriter`: the header map `w.Header()`, the status and
headers fixed by the first `WriteHeader`, and the body written so far. -/
structure ResponseWriter where
  header : Header
  wroteHeader : Option (Nat × Header)
  body : Bytes
  deriving DecidableEq, Repr

/-- The response writer the server hands to a handler. -/
def ResponseWriter.new : ResponseWriter := { header := [], wroteHeader := none, body := [] }

/-- The method `ResponseWriter.WriteHeader`: the first call fixes the status and the
headers; later calls are ignored. -/
def ResponseWriter.WriteHeader (w : ResponseWriter) (code : Nat) : ResponseWriter :=
  match w.wroteHeader with
  | some _ => w
  | none => { w with wroteHeader := some (code, w.header) }

/-- The method `ResponseWriter.Write`: implies `WriteHeader(http.StatusOK)` when no
header was written yet. -/
def ResponseWriter.Write (w : ResponseWriter) (b : Bytes) : ResponseWriter :=
  let w1 := w.WriteHeader 200
  { w1 with body := w1.body ++ b }

/-- The function `http.Error`: delete `Content-Length`, set `Content-Type` to
`text/plain; charset=utf-8` and `X-Content-Type-Options` to `nosniff`, write
the status, then `fmt.Fprintln(w, error)`: the message and a line feed. -/
def Error (w : ResponseWriter) (error : Bytes) (code : Nat) : ResponseWriter :=
  let h := Header.Del w.header (str "Content-Length")
  let h := Header.Set h (str "Content-Type") (str "text/plain; charset=utf-8")
  let h := Header.Set h (str "X-Content-Type-Options") (str "nosniff")
  let w1 := ResponseWriter.WriteHeader { w with header := h } code
  w1.Write (error ++ [10])

/-- What the client receives when the handler returns: status (200 if the handler
never wrote one), the headers set by the handler, and the body. -/
structure Response where
  status : Nat
  header : Header
  body : Bytes
  deriving DecidableEq, Repr

/-- The response sent for the final state of the response writer. -/
def ResponseWriter.finish (w : ResponseWriter) : Response :=
  match w.wroteHeader with
  | some (code, h) => { status := code, header := h, body := w.body }
  | none => { status := 200, header := w.header, body := w.body }

/-- The inbound `*http.Request`: method, request target, headers, and all the bytes
of `r.Body`. -/
structure Request where
  Method : Bytes
  URL : Bytes
  Header : Header
  Body : Bytes
  deriving DecidableEq, Repr

/-- The outbound `*http.Request` built by `http.NewRequest`: method, the URL it was
parsed from, payload (`none` for a nil body reader) and headers. -/
structure OutRequest where
  Method : Bytes
  URL : Bytes
  Body : Option Bytes
  Header : Header
  deriving DecidableEq, Repr

/-- The struct `http.Client`, its `Timeout` in nanoseconds (`time.Duration`). -/
structure Client where
  Timeout : Nat
  deriving DecidableEq, Repr

/-- The upstream `*http.Response`: status code, headers, and the bytes `io.ReadAll`
returns for its body (whatever was read when reading fails: the handler drops
the read error). -/
structure UpstreamResponse where
  StatusCode : Nat
  Header : Header
  Body : Bytes
  deriving DecidableEq, Repr

/-- An `*url.Error` returned by `url.Parse`: its `Op` is `"parse"`, `URL` the text
it reports, `Err` the text of the wrapped error. -/
structure urlError where
  URL : Bytes
  Err : Bytes
  deriving DecidableEq, Repr

/-- The world outside the handler. `Quote` is `strconv.Quote` (the verb `%q`);
`Parse url` is the error of `url.Parse(url)`, `none` when it returns a URL;
`Do` is `(*http.Client).Do`: the text of its error, or the upstream response. -/
structure Env where
  Quote : Bytes → Bytes
  Parse : Bytes → Option urlError
  Do : Client → OutRequest → Except Bytes UpstreamResponse

/-- The function `httpguts.IsTokenRune` on a byte: the `tchar` of RFC 7230. Bytes of
non-ASCII runes are not token characters. -/
def isTokenByte (c : UInt8) : Bool :=
  c == 33 || (35 ≤ c && c ≤ 39) || c == 42 || c == 43 || c == 45 || c == 46
    || (48 ≤ c && c ≤ 57) || (65 ≤ c && c ≤ 90) || (94 ≤ c && c ≤ 122) || c == 124 || c == 126

/-- The function `validMethod` of net/http. -/
def validMethod (method : Bytes) : Bool := method.length > 0 && method.all isTokenByte

/-- The method `(*url.Error).Error`: `fmt.Sprintf("%s %q: %s", e.Op, e.URL, e.Err)`. -/
def urlError.Error (env : Env) (e : urlError) : Bytes :=
  str "parse " ++ env.Quote e.URL ++ str ": " ++ e.Err

/-- The function `http.NewRequest` (`NewRequestWithContext` with the background
context): an empty method means `GET`, the method must be a token, the URL must
parse; the request carries the method and body as given and no headers. -/
def NewRequest (env : Env) (method url : Bytes) (body : Option Bytes) : Except Bytes OutRequest :=
  let method := if method = [] then str "GET" else method
  if !validMethod method then .error (str "net/http: invalid method " ++ env.Quote method)
  else
    match env.Parse url with
    | some e => .error (e.Error env)
    | none => .ok { Method := method, URL := url, Body := body, Header := [] }

/-- The constant `time.Second`, in nanoseconds. -/
def Second : Nat := 1000000000

/-- The constant `http.StatusMethodNotAllowed`. -/
def StatusMethodNotAllowed : Nat := 405

/-- The constant `http.StatusBadRequest`. -/
def StatusBadRequest : Nat := 400

/-- The constant `http.StatusBadGateway`. -/
def StatusBadGateway : Nat := 502

/-! ## src/main.go -/

/-- The outcome of one run of the handler: the response writer as the handler left
it, and the outbound calls it executed (`client.Do`), in order. -/
structure Run where
  w : ResponseWriter
  calls : List (Client × OutRequest)

/-- The function `apiHandler` (src/main.go, lines 87-142). -/
def apiHandler (env : Env) (r : Request) : Run :=
  let w := { ResponseWriter.new with
    header := Header.Set ResponseWriter.new.header (str "Content-Type") (str "application/json") }
  if r.Method ≠ str "POST" then
    { w := Error w (str "\x7b\"error\":\"only POST allowed\"\x7d") StatusMethodNotAllowed,
      calls := [] }
  else
    match Decode r.Body with
    | .error _ =>
      { w := Error w (str "\x7b\"error\":\"invalid JSON\"\x7d") StatusBadRequest, calls := [] }
    | .ok req =>
      if req.Method = [] ∨ req.URL = [] then
        { w := Error w (str "\x7b\"error\":\"method and url are required\"\x7d") StatusBadRequest,
          calls := [] }
      else
        let body : Option Bytes := if req.Body ≠ [] then some req.Body else none
        match NewRequest env req.Method req.URL body with
        | .error err =>
          { w := Error w (str "\x7b\"error\":\"" ++ err ++ str "\"\x7d") StatusBadRequest,
            calls := [] }
        | .ok outReq =>
          let outReq := { outReq with
            Header := Header.Set outReq.Header (str "Content-Type") (str "application/json") }
          let client : Client := { Timeout := 10 * Second }
          match env.Do client outReq with
          | .error err =>
            { w := Error w (str "\x7b\"error\":\"" ++ err ++ str "\"\x7d") StatusBadGateway,
              calls := [(client, outReq)] }
          | .ok resp =>
            { w := w.Write resp.Body, calls := [(client, outReq)] }

/-- The response the client receives from `apiHandler`. -/
def response (env : Env) (r : Request) : Response := (apiHandler env r).w.finish

set_option maxRecDepth 100000

/-! ## Vocabulary of the statements -/

/-- The response `http.Error(w, error, code)` leaves behind on a writer that has sent
nothing yet: status `code`, the two headers `http.Error` sets, and the message
followed by a line feed. -/
def errorResponse (error : Bytes) (code : Nat) : Response :=
  { status := code,
    header := [(str "Content-Type", str "text/plain; charset=utf-8"),
      (str "X-Content-Type-Options", str "nosniff")],
    body := error ++ [10] }

/-- The message of the Accept stage. -/
def msgOnlyPost : Bytes := str "\x7b\"error\":\"only POST allowed\"\x7d"

/-- The message of the Decode stage. -/
def msgInvalidJSON : Bytes := str "\x7b\"error\":\"invalid JSON\"\x7d"

/-- The message of the Validate stage. -/
def msgRequired : Bytes := str "\x7b\"error\":\"method and url are required\"\x7d"

/-- The message of the Construct and Execute stages for the error text `err`. -/
def msgError (err : Bytes) : Bytes := str "\x7b\"error\":\"" ++ err ++ str "\"\x7d"

/-- The payload the handler gives to `http.NewRequest` for a decoded CallSpec. -/
def payload (req : apiRequest) : Option Bytes := if req.Body ≠ [] then some req.Body else none

/-- The outbound request the handler passes to `client.Do` for a decoded CallSpec:
what `http.NewRequest` returns, with the `Content-Type` header set. -/
def outbound (req : apiRequest) : OutRequest :=
  { Method := req.Method, URL := req.URL, Body := payload req,
    Header := [(str "Content-Type", str "application/json")] }

/-- The client the handler builds: `&http.Client{Timeout: 10 * time.Second}`. -/
def theClient : Client := { Timeout := 10 * Second }

/-- An environment that agrees with Go on the inputs used in the examples below:
`strconv.Quote` of printable ASCII text without quotes or backslashes puts it
between double quotes; `url.Parse("::::")` fails in `getScheme` with
`missing protocol scheme`; the upstream answers 200 with the body `{"x":1}`
declared as `text/html`. -/
def sampleEnv : Env :=
  { Quote := fun t => [34] ++ t ++ [34],
    Parse := fun u =>
      if u = str "::::" then some { URL := str "::::", Err := str "missing protocol scheme" }
      else none,
    Do := fun _ _ =>
      .ok { StatusCode := 200, Header := [(str "Content-Type", str "text/html")],
            Body := str "\x7b\"x\":1\x7d" } }

/-- The sample environment with an upstream that cannot be reached. -/
def downEnv : Env :=
  { sampleEnv with Do := fun _ _ => .error (str "Get \"https://example.test/ok\": EOF") }

/-- An inbound `POST /api` with the given body and an `Origin` header. -/
def post (body : Bytes) : Request :=
  { Method := str "POST", URL := str "/api",
    Header := [(str "Origin", str "https://app.test")], Body := body }

/-- The CallSpec of the spec's example: `GET https://example.test/ok`, empty body. -/
def okBody : Bytes :=
  str "\x7b\"method\":\"GET\",\"url\":\"https://example.test/ok\",\"body\":\"\"\x7d"

/-- A CallSpec followed by bytes that are not JSON. -/
def trailingBody : Bytes :=
  str "\x7b\"method\":\"GET\",\"url\":\"https://example.test/ok\"\x7d oops"

/-- A JSON object without a `method` member. -/
def noMethodBody : Bytes := str "\x7b\"url\":\"https://example.test/ok\"\x7d"

/-- A JSON text cut off inside its first value. -/
def truncatedBody : Bytes := str "\x7b\"method\":\"GET\",\"url\":"

/-- A body that does not start with a JSON value. -/
def junkBody : Bytes := str "?"

/-- A CallSpec whose url has no scheme. -/
def badUrlBody : Bytes := str "\x7b\"method\":\"GET\",\"url\":\"::::\"\x7d"

/-- A CallSpec with a payload. -/
def payloadBody : Bytes :=
  str "\x7b\"method\":\"PUT\",\"url\":\"https://example.test/ok\",\"body\":\"\x7b\\\"a\\\":1\x7d\"\x7d"

/-- An inbound `GET /api` whose body is a valid CallSpec. -/
def getRequest : Request :=
  { Method := str "GET", URL := str "/api", Header := [], Body := okBody }

/-- The facts about the scanner that hold while `Decoder.readValue` is still reading:
no error recorded, `endTop` set once the step is `stateEndTop`, and a non-empty
stack while an array may still turn out empty. -/
def scanner.ok (s : scanner) : Prop :=
  s.err = false ∧ (s.step = .stateEndTop → s.endTop = true)
    ∧ (s.step = .stateBeginValueOrEmpty → s.parseState ≠ [])

/-- What one step from state `s` with result `r` guarantees: unless it stops, the
facts of `scanner.ok` hold again; it reports the end of the top-level value only
with an empty stack (and only if `mayEnd`); after closing an object or array
the step is `stateEndTop` at depth zero and `stateEndValue` otherwise. -/
def Summary (mayEnd : Bool) (s : scanner) (r : scanner × Op) : Prop :=
  (r.2 ≠ .scanEnd → r.2 ≠ .scanError → r.1.ok)
    ∧ (r.2 = .scanEnd → mayEnd = true ∧ s.parseState = [])
    ∧ (r.2 = .scanEndObject ∨ r.2 = .scanEndArray →
        (r.1.step = .stateEndTop ∧ r.1.endTop = true ∧ r.1.parseState = [])
          ∨ (r.1.step = .stateEndValue ∧ r.1.parseState ≠ []))

/-- The states whose step function can report the end of the top-level value. -/
def canEnd : StepFn → Bool
  | .stateEndTop => true
  | .stateEndValue => true
  | .state0 => true
  | .state1 => true
  | .stateDot0 => true
  | .stateE0 => true
  | .stateBeginValueOrEmpty => true
  | _ => false

/-! ## The decoder reads a valid prefix -/

theorem Summary.weaken (s : scanner) (r : scanner × Op) (h : Summary false s r) :
    Summary true s r :=
  ⟨h.1, fun he => absurd (h.2.1 he).1 (by decide), h.2.2⟩

theorem stateEndValue_summary (s : scanner) (c : UInt8) (hs : s.ok) (r : scanner × Op)
    (hr : stateEndValue s c = r) : Summary true s r := by
  obtain ⟨step, endTop, ps, err⟩ := s
  obtain ⟨he, -, -⟩ := hs
  simp only at he
  subst he
  cases ps with
  | nil =>
    simp only [stateEndValue, stateEndTop] at hr
    split_ifs at hr <;> subst hr <;> simp [Summary]
  | cons p rest =>
    cases p <;> simp only [stateEndValue] at hr <;> split_ifs at hr <;> subst hr <;>
      simp [Summary, scanner.ok, scanner.error, scanner.popParseState] <;>
      cases rest <;> simp

theorem stateInString_summary (s : scanner) (c : UInt8) (hs : s.ok) (r : scanner × Op)
    (hr : stateInString s c = r) (hst : s.step = .stateInString) : Summary false s r := by
  obtain ⟨step, endTop, ps, err⟩ := s
  unfold stateInString at hr
  split_ifs at hr <;> subst hr <;> simp_all [Summary, scanner.error, scanner.ok]

theorem stateInStringEsc_summary (s : scanner) (c : UInt8) (hs : s.ok) (r : scanner × Op)
    (hr : stateInStringEsc s c = r) : Summary false s r := by
  obtain ⟨step, endTop, ps, err⟩ := s
  unfold stateInStringEsc at hr
  split_ifs at hr <;> subst hr <;> simp_all [Summary, scanner.error, scanner.ok]

theorem stateHexDigit_summary (next : StepFn) (s : scanner) (c : UInt8) (hs : s.ok)
    (r : scanner × Op) (hr : stateHexDigit next s c = r)
    (h1 : next ≠ .stateEndTop) (h2 : next ≠ .stateBeginValueOrEmpty) : Summary false s r := by
  obtain ⟨step, endTop, ps, err⟩ := s
  unfold stateHexDigit at hr
  split_ifs at hr <;> subst hr <;> simp_all [Summary, scanner.error, scanner.ok]

theorem stateLetter_summary (want : UInt8) (next : StepFn) (s : scanner) (c : UInt8) (hs : s.ok)
    (r : scanner × Op) (hr : stateLetter want next s c = r)
    (h1 : next ≠ .stateEndTop) (h2 : next ≠ .stateBeginValueOrEmpty) : Summary false s r := by
  obtain ⟨step, endTop, ps, err⟩ := s
  unfold stateLetter at hr
  split_ifs at hr <;> subst hr <;> simp_all [Summary, scanner.error, scanner.ok]

theorem stateNeg_summary (s : scanner) (c : UInt8) (hs : s.ok) (r : scanner × Op)
    (hr : stateNeg s c = r) : Summary false s r := by
  obtain ⟨step, endTop, ps, err⟩ := s
  unfold stateNeg at hr
  split_ifs at hr <;> subst hr <;> simp_all [Summary, scanner.error, scanner.ok]

theorem stateDot_summary (s : scanner) (c : UInt8) (hs : s.ok) (r : scanner × Op)
    (hr : stateDot s c = r) : Summary false s r := by
  obtain ⟨step, endTop, ps, err⟩ := s
  unfold stateDot at hr
  split_ifs at hr <;> subst hr <;> simp_all [Summary, scanner.error, scanner.ok]

theorem stateESign_summary (s : scanner) (c : UInt8) (hs : s.ok) (r : scanner × Op)
    (hr : stateESign s c = r) : Summary false s r := by
  obtain ⟨step, endTop, ps, err⟩ := s
  unfold stateESign at hr
  split_ifs at hr <;> subst hr <;> simp_all [Summary, scanner.error, scanner.ok]

theorem stateE_summary (s : scanner) (c : UInt8) (hs : s.ok) (r : scanner × Op)
    (hr : stateE s c = r) : Summary false s r := by
  unfold stateE at hr
  split_ifs at hr
  · obtain ⟨step, endTop, ps, err⟩ := s
    subst hr
    simp_all [Summary, scanner.ok]
  · exact stateESign_summary s c hs r hr

theorem stateBeginString_summary (s : scanner) (c : UInt8) (hs : s.ok) (r : scanner × Op)
    (hr : stateBeginString s c = r) (hst : s.step ≠ .stateBeginValueOrEmpty) :
    Summary false s r := by
  obtain ⟨step, endTop, ps, err⟩ := s
  unfold stateBeginString at hr
  split_ifs at hr <;> subst hr <;> simp_all [Summary, scanner.error, scanner.ok]

theorem state0_summary (s : scanner) (c : UInt8) (hs : s.ok) (r : scanner × Op)
    (hr : state0 s c = r) : Summary true s r := by
  unfold state0 at hr
  split_ifs at hr
  · obtain ⟨step, endTop, ps, err⟩ := s
    subst hr
    simp_all [Summary, scanner.ok]
  · obtain ⟨step, endTop, ps, err⟩ := s
    subst hr
    simp_all [Summary, scanner.ok]
  · exact stateEndValue_summary s c hs r hr

theorem state1_summary (s : scanner) (c : UInt8) (hs : s.ok) (r : scanner × Op)
    (hr : state1 s c = r) : Summary true s r := by
  unfold state1 at hr
  split_ifs at hr
  · obtain ⟨step, endTop, ps, err⟩ := s
    subst hr
    simp_all [Summary, scanner.ok]
  · exact state0_summary s c hs r hr

theorem stateDot0_summary (s : scanner) (c : UInt8) (hs : s.ok) (r : scanner × Op)
    (hr : stateDot0 s c = r) (hst : s.step = .stateDot0) : Summary true s r := by
  unfold stateDot0 at hr
  split_ifs at hr
  · obtain ⟨step, endTop, ps, err⟩ := s
    subst hr
    simp_all [Summary, scanner.ok]
  · obtain ⟨step, endTop, ps, err⟩ := s
    subst hr
    simp_all [Summary, scanner.ok]
  · exact stateEndValue_summary s c hs r hr

theorem stateE0_summary (s : scanner) (c : UInt8) (hs : s.ok) (r : scanner × Op)
    (hr : stateE0 s c = r) (hst : s.step = .stateE0) : Summary true s r := by
  unfold stateE0 at hr
  split_ifs at hr
  · obtain ⟨step, endTop, ps, err⟩ := s
    subst hr
    simp_all [Summary, scanner.ok]
  · exact stateEndValue_summary s c hs r hr

theorem stateBeginValue_summary (s : scanner) (c : UInt8) (hs : s.ok) (r : scanner × Op)
    (hr : stateBeginValue s c = r) : Summary false s r := by
  obtain ⟨step, endTop, ps, err⟩ := s
  obtain ⟨he, ht, hb⟩ := hs
  simp only at he ht hb
  subst he
  unfold stateBeginValue scanner.pushParseState at hr
  dsimp only at hr
  generalize maxNestingDepth = mx at hr
  by_cases h0 : isSpace c = true
  · rw [if_pos h0] at hr
    subst hr
    simp only [Summary, scanner.ok]
    exact ⟨fun _ _ => ⟨trivial, ht, hb⟩, by simp, by simp⟩
  rw [if_neg h0] at hr
  by_cases h1 : (c == 123) = true
  · rw [if_pos h1] at hr
    by_cases h : (ParseState.parseObjectKey :: ps).length ≤ mx
    · rw [if_pos h] at hr
      subst hr
      simp [Summary, scanner.ok]
    · rw [if_neg h] at hr
      subst hr
      simp [Summary, scanner.error]
  rw [if_neg h1] at hr
  by_cases h2 : (c == 91) = true
  · rw [if_pos h2] at hr
    by_cases h : (ParseState.parseArrayValue :: ps).length ≤ mx
    · rw [if_pos h] at hr
      subst hr
      simp [Summary, scanner.ok]
    · rw [if_neg h] at hr
      subst hr
      simp [Summary, scanner.error]
  rw [if_neg h2] at hr
  clear h0 h1 h2
  by_cases h3 : (c == 34) = true
  · rw [if_pos h3] at hr
    subst hr
    simp [Summary, scanner.ok]
  rw [if_neg h3] at hr
  by_cases h4 : (c == 45) = true
  · rw [if_pos h4] at hr
    subst hr
    simp [Summary, scanner.ok]
  rw [if_neg h4] at hr
  by_cases h5 : (c == 48) = true
  · rw [if_pos h5] at hr
    subst hr
    simp [Summary, scanner.ok]
  rw [if_neg h5] at hr
  by_cases h6 : (c == 116) = true
  · rw [if_pos h6] at hr
    subst hr
    simp [Summary, scanner.ok]
  rw [if_neg h6] at hr
  by_cases h7 : (c == 102) = true
  · rw [if_pos h7] at hr
    subst hr
    simp [Summary, scanner.ok]
  rw [if_neg h7] at hr
  by_cases h8 : (c == 110) = true
  · rw [if_pos h8] at hr
    subst hr
    simp [Summary, scanner.ok]
  rw [if_neg h8] at hr
  by_cases h9 : (49 ≤ c && c ≤ 57) = true
  · rw [if_pos h9] at hr
    subst hr
    simp [Summary, scanner.ok]
  rw [if_neg h9] at hr
  subst hr
  simp [Summary, scanner.error]

theorem stateBeginValueOrEmpty_summary (s : scanner) (c : UInt8) (hs : s.ok) (r : scanner × Op)
    (hr : stateBeginValueOrEmpty s c = r) : Summary true s r := by
  unfold stateBeginValueOrEmpty at hr
  split_ifs at hr
  · obtain ⟨step, endTop, ps, err⟩ := s
    subst hr
    simp_all [Summary, scanner.ok]
  · exact stateEndValue_summary s c hs r hr
  · exact Summary.weaken s r (stateBeginValue_summary s c hs r hr)

theorem stateBeginStringOrEmpty_summary (s : scanner) (c : UInt8) (hs : s.ok) (r : scanner × Op)
    (hr : stateBeginStringOrEmpty s c = r) (hst : s.step = .stateBeginStringOrEmpty) :
    Summary false s r := by
  unfold stateBeginStringOrEmpty at hr
  split_ifs at hr
  · obtain ⟨step, endTop, ps, err⟩ := s
    subst hr
    simp_all [Summary, scanner.ok]
  · have hs2 : scanner.ok { s with parseState := .parseObjectValue :: s.parseState.tail } := by
      obtain ⟨step, endTop, ps, err⟩ := s
      simp_all [scanner.ok]
    have h := stateEndValue_summary _ c hs2 r hr
    refine ⟨h.1, fun he => ?_, h.2.2⟩
    have := (h.2.1 he).2
    simp at this
  · exact stateBeginString_summary s c hs r hr (by rw [hst]; decide)

theorem stepByte_summary (s : scanner) (c : UInt8) (hs : s.ok) (hne : s.step ≠ .stateEndTop) :
    Summary (canEnd s.step) s (s.stepByte c) := by
  cases hst : s.step <;> simp only [scanner.stepByte, hst, canEnd]
  all_goals first
    | exact absurd hst hne
    | exact stateEndValue_summary s c hs _ rfl
    | exact state0_summary s c hs _ rfl
    | exact state1_summary s c hs _ rfl
    | exact stateDot0_summary s c hs _ rfl hst
    | exact stateE0_summary s c hs _ rfl hst
    | exact stateBeginValueOrEmpty_summary s c hs _ rfl
    | exact stateBeginValue_summary s c hs _ rfl
    | exact stateBeginStringOrEmpty_summary s c hs _ rfl hst
    | exact stateBeginString_summary s c hs _ rfl (by rw [hst]; decide)
    | exact stateInString_summary s c hs _ rfl hst
    | exact stateInStringEsc_summary s c hs _ rfl
    | exact stateHexDigit_summary _ s c hs _ rfl (by decide) (by decide)
    | exact stateLetter_summary _ _ s c hs _ rfl (by decide) (by decide)
    | exact stateNeg_summary s c hs _ rfl
    | exact stateDot_summary s c hs _ rfl
    | exact stateE_summary s c hs _ rfl
    | exact stateESign_summary s c hs _ rfl
    | simp [Summary]

theorem stepByte_endTop (s : scanner) (c : UInt8) (h : s.step = .stateEndTop) :
    (s.stepByte c).2 = .scanEnd := by
  simp only [scanner.stepByte, h, stateEndTop]
  split_ifs <;> rfl

theorem stateEndValue_space (s : scanner) (h : s.parseState = []) :
    (stateEndValue s 32).1.endTop = true := by
  obtain ⟨step, endTop, ps, err⟩ := s
  simp only at h
  subst h
  rfl

theorem stepByte_space (s : scanner) (h : s.parseState = []) (hc : canEnd s.step = true)
    (h1 : s.step ≠ .stateEndTop) (h2 : s.step ≠ .stateBeginValueOrEmpty) :
    (s.stepByte 32).1.endTop = true := by
  obtain ⟨step, endTop, ps, err⟩ := s
  simp only at h h1 h2 hc
  subst h
  cases step <;> first | rfl | exact absurd rfl h1 | exact absurd rfl h2 | exact absurd hc (by decide)

theorem eof_of_scanEnd (s : scanner) (c : UInt8) (hs : s.ok)
    (h : (s.stepByte c).2 = .scanEnd) : s.eof = .scanEnd := by
  unfold scanner.eof
  rw [hs.1]
  simp only [Bool.false_eq_true, if_false]
  by_cases ht : s.endTop = true
  · rw [if_pos ht]
  · rw [if_neg ht]
    by_cases hne : s.step = .stateEndTop
    · exact absurd (hs.2.1 hne) ht
    · obtain ⟨hc, hps⟩ := (stepByte_summary s c hs hne).2.1 h
      have hb : s.step ≠ .stateBeginValueOrEmpty := fun hb => hs.2.2 hb hps
      rw [if_pos (stepByte_space s hps hc hne hb)]

theorem checkValidFrom_cons (s s1 : scanner) (op : Op) (c : UInt8) (l : Bytes)
    (hstep : s.stepByte c = (s1, op)) (hop : op ≠ .scanError) :
    checkValidFrom s (c :: l) = checkValidFrom s1 l := by
  cases op <;> first | exact absurd rfl hop | simp only [checkValidFrom, hstep]

theorem readValueFrom_valid (buf : Bytes) (rest : Bytes) :
    ∀ (s : scanner) (n m : Nat), s.ok → readValueFrom buf s rest n = .ok m →
      ∃ k, m = n + k ∧ checkValidFrom s (rest.take k) = true := by
  induction rest with
  | nil =>
    intro s n m hs h
    unfold readValueFrom at h
    split_ifs at h with h1 h2
    · injection h with h
      refine ⟨0, by omega, ?_⟩
      simp [checkValidFrom, eof_of_scanEnd s 32 hs h1]
  | cons c rest ih =>
    intro s n m hs h
    have cont : ∀ (s1 : scanner) (op : Op), s.stepByte c = (s1, op) → op ≠ .scanError →
        op ≠ .scanEnd → readValueFrom buf s1 rest (n + 1) = .ok m →
        ∃ k, m = n + k ∧ checkValidFrom s ((c :: rest).take k) = true := by
      intro s1 op hstep h1 h2 hrec
      have hne : s.step ≠ .stateEndTop := by
        intro ht
        have := stepByte_endTop s c ht
        rw [hstep] at this
        exact h2 this
      have hs1 : s1.ok := by
        have := (stepByte_summary s c hs hne).1
        rw [hstep] at this
        exact this h2 h1
      obtain ⟨k, hk, hv⟩ := ih s1 (n + 1) m hs1 hrec
      refine ⟨k + 1, by omega, ?_⟩
      rw [List.take_succ_cons, checkValidFrom_cons s s1 op c _ hstep h1]
      exact hv
    unfold readValueFrom at h
    generalize hstep : s.stepByte c = r at h
    obtain ⟨s1, op⟩ := r
    cases op <;> simp only at h
    all_goals first
      | exact cont s1 _ hstep (by decide) (by decide) h
      | (injection h with h
         exact ⟨0, by omega,
           by simp [checkValidFrom, eof_of_scanEnd s c hs (by rw [hstep])]⟩)
      | cases h
      | (have hne : s.step ≠ .stateEndTop := by
           intro ht
           have := stepByte_endTop s c ht
           rw [hstep] at this
           cases this
         have hsum := stepByte_summary s c hs hne
         rw [hstep] at hsum
         have hs1 : s1.ok := hsum.1 (by simp) (by simp)
         rcases hsum.2.2 (by first | exact Or.inl rfl | exact Or.inr rfl) with
           ⟨_, het, hps⟩ | ⟨hst, hps⟩
         · have het : s1.endTop = true := het
           have h32 : (stateEndValue s1 32).2 = .scanEnd := by
             obtain ⟨step, endTop, ps, err⟩ := s1
             simp only at hps
             subst hps
             rfl
           generalize stateEndValue s1 32 = r2 at h h32
           obtain ⟨s2, op2⟩ := r2
           simp only at h32
           subst h32
           simp only at h
           injection h with h
           refine ⟨1, by omega, ?_⟩
           rw [List.take_succ_cons, List.take_zero,
             checkValidFrom_cons s s1 _ c _ hstep (by decide)]
           simp [checkValidFrom, scanner.eof, hs1.1, het]
         · have h32 : stateEndValue s1 32 = (s1, .scanSkipSpace) := by
             obtain ⟨step, endTop, ps, err⟩ := s1
             simp only at hst hps
             subst hst
             cases ps with
             | nil => exact absurd rfl hps
             | cons p ps => rfl
           rw [h32] at h
           simp only at h
           exact cont s1 _ hstep (by decide) (by decide) h)

theorem readValue_valid (buf : Bytes) (n : Nat) (h : readValue buf = .ok n) :
    Valid (buf.take n) = true := by
  obtain ⟨k, hk, hv⟩ := readValueFrom_valid buf buf scanner.reset 0 n
    ⟨rfl, by decide, by decide⟩ h
  have : k = n := by omega
  subst this
  exact hv

theorem Decode_error_of_no_valid_prefix (body : Bytes)
    (h : ∀ n, Valid (body.take n) = false) : ∃ e, Decode body = .error e := by
  unfold Decode
  cases hr : readValue body with
  | error e => exact ⟨e, rfl⟩
  | ok n =>
    have := readValue_valid body n hr
    rw [h n] at this
    cases this

/-! ## The handler, branch by branch -/

theorem finish_Error (h : Header) (error : Bytes) (code : Nat) :
    (Error { header := h, wroteHeader := none, body := [] } error code).finish
      = { status := code,
          header := Header.Set (Header.Set (Header.Del h (str "Content-Length"))
            (str "Content-Type") (str "text/plain; charset=utf-8"))
            (str "X-Content-Type-Options") (str "nosniff"),
          body := error ++ [10] } := by
  simp [Error, ResponseWriter.WriteHeader, ResponseWriter.Write, ResponseWriter.finish]

theorem finish_Error_json (error : Bytes) (code : Nat) :
    (Error { header := Header.Set [] (str "Content-Type") (str "application/json"),
             wroteHeader := none, body := [] } error code).finish
      = errorResponse error code := by
  rw [finish_Error]
  rfl

theorem response_notPost (env : Env) (r : Request) (h : r.Method ≠ str "POST") :
    response env r = errorResponse msgOnlyPost StatusMethodNotAllowed
      ∧ (apiHandler env r).calls = [] := by
  simp only [response, apiHandler, ResponseWriter.new, h, ne_eq, not_false_eq_true, if_true]
  exact ⟨finish_Error_json _ _, trivial⟩

theorem response_decodeError (env : Env) (r : Request) (e : DecodeError)
    (h : r.Method = str "POST") (hd : Decode r.Body = .error e) :
    response env r = errorResponse msgInvalidJSON StatusBadRequest
      ∧ (apiHandler env r).calls = [] := by
  simp only [response, apiHandler, ResponseWriter.new, h, hd, ne_eq, not_true_eq_false, if_false]
  exact ⟨finish_Error_json _ _, trivial⟩

theorem response_required (env : Env) (r : Request) (req : apiRequest)
    (h : r.Method = str "POST") (hd : Decode r.Body = .ok req)
    (hv : req.Method = [] ∨ req.URL = []) :
    response env r = errorResponse msgRequired StatusBadRequest
      ∧ (apiHandler env r).calls = [] := by
  simp only [response, apiHandler, ResponseWriter.new, h, hd, hv, ne_eq, not_true_eq_false,
    if_false, if_true]
  exact ⟨finish_Error_json _ _, trivial⟩

theorem response_constructError (env : Env) (r : Request) (req : apiRequest) (err : Bytes)
    (h : r.Method = str "POST") (hd : Decode r.Body = .ok req)
    (hm : req.Method ≠ []) (hu : req.URL ≠ [])
    (hc : NewRequest env req.Method req.URL (payload req) = .error err) :
    response env r = errorResponse (msgError err) StatusBadRequest
      ∧ (apiHandler env r).calls = [] := by
  have hv : ¬ (req.Method = [] ∨ req.URL = []) := by simp [hm, hu]
  unfold payload at hc
  simp only [response, apiHandler, ResponseWriter.new, h, hd, hv, hc, ne_eq, not_true_eq_false,
    if_false]
  exact ⟨finish_Error_json _ _, trivial⟩

theorem response_doError (env : Env) (r : Request) (req : apiRequest) (out : OutRequest)
    (err : Bytes)
    (h : r.Method = str "POST") (hd : Decode r.Body = .ok req)
    (hm : req.Method ≠ []) (hu : req.URL ≠ [])
    (hc : NewRequest env req.Method req.URL (payload req) = .ok out)
    (hx : env.Do theClient { out with
      Header := Header.Set out.Header (str "Content-Type") (str "application/json") }
        = .error err) :
    response env r = errorResponse (msgError err) StatusBadGateway
      ∧ (apiHandler env r).calls = [(theClient, { out with
          Header := Header.Set out.Header (str "Content-Type") (str "application/json") })] := by
  have hv : ¬ (req.Method = [] ∨ req.URL = []) := by simp [hm, hu]
  unfold payload at hc
  unfold theClient at hx
  simp only [response, apiHandler, ResponseWriter.new, h, hd, hv, hc, hx, ne_eq,
    not_true_eq_false, if_false]
  exact ⟨finish_Error_json _ _, rfl⟩

theorem response_relay (env : Env) (r : Request) (req : apiRequest) (out : OutRequest)
    (resp : UpstreamResponse)
    (h : r.Method = str "POST") (hd : Decode r.Body = .ok req)
    (hm : req.Method ≠ []) (hu : req.URL ≠ [])
    (hc : NewRequest env req.Method req.URL (payload req) = .ok out)
    (hx : env.Do theClient { out with
      Header := Header.Set out.Header (str "Content-Type") (str "application/json") }
        = .ok resp) :
    response env r
        = { status := 200, header := [(str "Content-Type", str "application/json")],
            body := resp.Body }
      ∧ (apiHandler env r).calls = [(theClient, { out with
          Header := Header.Set out.Header (str "Content-Type") (str "application/json") })] := by
  have hv : ¬ (req.Method = [] ∨ req.URL = []) := by simp [hm, hu]
  unfold payload at hc
  unfold theClient at hx
  simp only [response, apiHandler, ResponseWriter.new, h, hd, hv, hc, hx, ne_eq,
    not_true_eq_false, if_false]
  exact ⟨rfl, rfl⟩

theorem NewRequest_error_head (env : Env) (method url : Bytes) (body : Option Bytes)
    (err : Bytes) (h : NewRequest env method url body = .error err) :
    ∃ c t, err = c :: t ∧ (c = 110 ∨ c = 112) := by
  unfold NewRequest at h
  dsimp only at h
  by_cases hv : validMethod (if method = [] then str "GET" else method) = true
  · simp only [hv, Bool.not_true, Bool.false_eq_true, if_false] at h
    cases hp : env.Parse url with
    | none => rw [hp] at h; cases h
    | some e =>
      rw [hp] at h
      injection h with h
      exact ⟨112, _, h.symm, Or.inr rfl⟩
  · simp only [hv, Bool.not_false, if_true] at h
    injection h with h
    exact ⟨110, _, h.symm, Or.inl rfl⟩

theorem NewRequest_ok (env : Env) (method url : Bytes) (body : Option Bytes)
    (out : OutRequest) (hm : method ≠ [])
    (h : NewRequest env method url body = .ok out) :
    out = { Method := method, URL := url, Body := body, Header := [] } := by
  unfold NewRequest at h
  simp only [hm, if_false] at h
  by_cases hv : validMethod method = true
  · simp only [hv, Bool.not_true, Bool.false_eq_true, if_false] at h
    cases hp : env.Parse url with
    | none =>
      rw [hp] at h
      injection h with h
      exact h.symm
    | some e => rw [hp] at h; cases h
  · simp only [hv, Bool.not_false, if_true] at h
    cases h

theorem msgError_ne_required (c : UInt8) (t : Bytes) (hc : c = 110 ∨ c = 112) :
    msgError (c :: t) ++ [10] ≠ msgRequired ++ [10] := by
  intro h
  have h10 : (msgError (c :: t) ++ [10]).get? 10 = some c := rfl
  have h11 : (msgRequired ++ [10]).get? 10 = some 109 := by decide
  rw [h, h11] at h10
  injection h10 with h10
  subst h10
  revert hc
  decide

theorem outbound_eq (env : Env) (req : apiRequest) (out : OutRequest) (hm : req.Method ≠ [])
    (hc : NewRequest env req.Method req.URL (payload req) = .ok out) :
    { out with Header := Header.Set out.Header (str "Content-Type") (str "application/json") }
      = outbound req := by
  rw [NewRequest_ok env _ _ _ out hm hc]
  rfl

theorem isInfix_msgError (err : Bytes) : List.IsInfix err (msgError err ++ [10]) :=
  ⟨str "\x7b\"error\":\"", str "\"\x7d" ++ [10], by simp [msgError]⟩

theorem calls_eq (env : Env) (r : Request) (req : apiRequest) (out : OutRequest)
    (h : r.Method = str "POST") (hd : Decode r.Body = .ok req)
    (hm : req.Method ≠ []) (hu : req.URL ≠ [])
    (hc : NewRequest env req.Method req.URL (payload req) = .ok out) :
    (apiHandler env r).calls = [(theClient, outbound req)] := by
  have ho := outbound_eq env req out hm hc
  cases hx : env.Do theClient (outbound req) with
  | error err =>
    rw [← ho] at hx
    rw [(response_doError env r req out err h hd hm hu hc hx).2, ho]
  | ok resp =>
    rw [← ho] at hx
    rw [(response_relay env r req out resp h hd hm hu hc hx).2, ho]

theorem calls_cases (env : Env) (r : Request) :
    (apiHandler env r).calls = []
      ∨ (r.Method = str "POST" ∧ ∃ req, Decode r.Body = .ok req ∧ req.Method ≠ [] ∧ req.URL ≠ []
          ∧ ∃ out, NewRequest env req.Method req.URL (payload req) = .ok out) := by
  by_cases h : r.Method = str "POST"
  · cases hd : Decode r.Body with
    | error e => exact Or.inl (response_decodeError env r e h hd).2
    | ok req =>
      by_cases hv : req.Method = [] ∨ req.URL = []
      · exact Or.inl (response_required env r req h hd hv).2
      · have hm : req.Method ≠ [] := fun hm => hv (Or.inl hm)
        have hu : req.URL ≠ [] := fun hu => hv (Or.inr hu)
        cases hc : NewRequest env req.Method req.URL (payload req) with
        | error err => exact Or.inl (response_constructError env r req err h hd hm hu hc).2
        | ok out => exact Or.inr ⟨h, req, rfl, hm, hu, out, hc⟩
  · exact Or.inl (response_notPost env r h).2

/-! ## Accept -/

/-- C1 as stated fails: for the inbound `GET /api` the status is 405, but the
response body is not exactly the bytes `{"error":"only POST allowed"}`: a line
feed follows them. -/
theorem accept_body_not_exact :
    (response sampleEnv getRequest).status = 405
      ∧ (response sampleEnv getRequest).body ≠ str "\x7b\"error\":\"only POST allowed\"\x7d" := by
  decide

/-- C1, amended: every inbound request whose method is not exactly `POST`, whatever
its body and whatever the outside world would do, gets status 405 and a body
that is exactly the bytes `{"error":"only POST allowed"}` followed by one line
feed (0x0A), and no outbound call is made. -/
theorem accept_rejects_other_methods (env : Env) (r : Request) (h : r.Method ≠ str "POST") :
    (response env r).status = 405
      ∧ (response env r).body = str "\x7b\"error\":\"only POST allowed\"\x7d" ++ [10]
      ∧ (apiHandler env r).calls = [] := by
  obtain ⟨h1, h2⟩ := response_notPost env r h
  rw [h1]
  exact ⟨rfl, rfl, h2⟩

/-- C1, amended, at `GET /api` with a valid CallSpec as body. -/
theorem accept_rejects_other_methods_witness :
    getRequest.Method ≠ str "POST"
      ∧ Decode getRequest.Body
          = .ok { Method := str "GET", URL := str "https://example.test/ok", Body := [] }
      ∧ (response sampleEnv getRequest).status = 405
      ∧ (response sampleEnv getRequest).body = str "\x7b\"error\":\"only POST allowed\"\x7d" ++ [10]
      ∧ (apiHandler sampleEnv getRequest).calls = [] :=
  ⟨by decide, by rfl, accept_rejects_other_methods sampleEnv getRequest (by decide)⟩

/-! ## Decode -/

/-- C2 as stated fails: the body `{"method":"GET","url":"https://example.test/ok"} oops`
is not valid JSON as a whole byte sequence, yet the handler decodes its first
value, makes the outbound call and relays the upstream body with status 200. -/
theorem decode_accepts_trailing_bytes :
    Valid trailingBody = false
      ∧ Decode trailingBody
          = .ok { Method := str "GET", URL := str "https://example.test/ok", Body := [] }
      ∧ (response sampleEnv (post trailingBody)).status = 200
      ∧ (response sampleEnv (post trailingBody)).body = str "\x7b\"x\":1\x7d"
      ∧ (apiHandler sampleEnv (post trailingBody)).calls.length = 1 := by
  refine ⟨by decide, by rfl, by decide, by decide, by decide⟩

/-- C2, amended: for every inbound POST request on whose body `Decoder.Decode` fails
(the body does not start with a complete JSON value, or that value does not fit
a CallSpec), in particular for every body of which no initial segment is valid
JSON, the handler answers 400 with `{"error":"invalid JSON"}` and a line feed,
and makes no outbound call. Bytes after the first JSON value are not
examined. -/
theorem decode_failure_is_invalid_json (env : Env) (r : Request)
    (h : r.Method = str "POST")
    (hd : (∃ e, Decode r.Body = .error e) ∨ ∀ n, Valid (r.Body.take n) = false) :
    (response env r).status = 400
      ∧ (response env r).body = str "\x7b\"error\":\"invalid JSON\"\x7d" ++ [10]
      ∧ (apiHandler env r).calls = [] := by
  have hd2 : ∃ e, Decode r.Body = .error e := by
    rcases hd with hd | hd
    · exact hd
    · exact Decode_error_of_no_valid_prefix r.Body hd
  obtain ⟨e, hd2⟩ := hd2
  obtain ⟨h1, h2⟩ := response_decodeError env r e h hd2
  rw [h1]
  exact ⟨rfl, rfl, h2⟩

/-- C2, amended, at a body cut off inside its first value and at a body that does not
start with a JSON value. -/
theorem decode_failure_is_invalid_json_witness :
    (Decode (post truncatedBody).Body = .error .ErrUnexpectedEOF
      ∧ (response sampleEnv (post truncatedBody)).status = 400
      ∧ (response sampleEnv (post truncatedBody)).body
          = str "\x7b\"error\":\"invalid JSON\"\x7d" ++ [10]
      ∧ (apiHandler sampleEnv (post truncatedBody)).calls = [])
    ∧ ((∀ n, Valid ((post junkBody).Body.take n) = false)
      ∧ (response sampleEnv (post junkBody)).status = 400
      ∧ (response sampleEnv (post junkBody)).body
          = str "\x7b\"error\":\"invalid JSON\"\x7d" ++ [10]
      ∧ (apiHandler sampleEnv (post junkBody)).calls = []) :=
  have hj : ∀ n, Valid ((post junkBody).Body.take n) = false := by
    intro n
    cases n with
    | zero => rfl
    | succ k =>
      have : (post junkBody).Body.take (k + 1) = junkBody := by
        simp [post, junkBody, str, String.utf8EncodeChar]
      rw [this]
      rfl
  ⟨⟨by rfl,
      decode_failure_is_invalid_json sampleEnv (post truncatedBody) (by decide)
        (Or.inl ⟨.ErrUnexpectedEOF, by rfl⟩)⟩,
    ⟨hj, decode_failure_is_invalid_json sampleEnv (post junkBody) (by decide) (Or.inr hj)⟩⟩

/-! ## Validate -/

/-- C3: for every inbound POST request whose body decodes to a CallSpec, if method or
url is empty the handler answers 400 with the "method and url are required"
error (and makes no outbound call); if both are non-empty the response is never
that error, whatever the later stages do. -/
theorem validate_requires_method_and_url (env : Env) (r : Request) (req : apiRequest)
    (h : r.Method = str "POST") (hd : Decode r.Body = .ok req) :
    ((req.Method = [] ∨ req.URL = []) →
        (response env r).status = 400
          ∧ (response env r).body = str "\x7b\"error\":\"method and url are required\"\x7d" ++ [10]
          ∧ (apiHandler env r).calls = [])
      ∧ (req.Method ≠ [] → req.URL ≠ [] →
          ¬ ((response env r).status = 400
            ∧ (response env r).body
                = str "\x7b\"error\":\"method and url are required\"\x7d" ++ [10])) := by
  constructor
  · intro hv
    obtain ⟨h1, h2⟩ := response_required env r req h hd hv
    rw [h1]
    exact ⟨rfl, rfl, h2⟩
  · intro hm hu
    cases hc : NewRequest env req.Method req.URL (payload req) with
    | error err =>
      obtain ⟨c, t, he, hct⟩ := NewRequest_error_head env _ _ _ err hc
      rw [(response_constructError env r req err h hd hm hu hc).1]
      subst he
      exact fun hb => msgError_ne_required c t hct hb.2
    | ok out =>
      cases hx : env.Do theClient { out with
          Header := Header.Set out.Header (str "Content-Type") (str "application/json") } with
      | error err =>
        rw [(response_doError env r req out err h hd hm hu hc hx).1]
        exact fun hb => absurd (show (502 : Nat) = 400 from hb.1) (by decide)
      | ok resp =>
        rw [(response_relay env r req out resp h hd hm hu hc hx).1]
        exact fun hb => absurd (show (200 : Nat) = 400 from hb.1) (by decide)

/-- C3 at a JSON object that has no `method` member: the decoded method is empty. -/
theorem validate_requires_method_and_url_witness :
    (post noMethodBody).Method = str "POST"
      ∧ Decode (post noMethodBody).Body
          = .ok { Method := [], URL := str "https://example.test/ok", Body := [] }
      ∧ (response sampleEnv (post noMethodBody)).status = 400
      ∧ (response sampleEnv (post noMethodBody)).body
          = str "\x7b\"error\":\"method and url are required\"\x7d" ++ [10]
      ∧ (apiHandler sampleEnv (post noMethodBody)).calls = [] :=
  ⟨by decide, by rfl,
    (validate_requires_method_and_url sampleEnv (post noMethodBody)
      { Method := [], URL := str "https://example.test/ok", Body := [] }
      (by decide) (by rfl)).1 (Or.inl rfl)⟩

/-! ## Construct -/

/-- C5: for every inbound POST request whose CallSpec passes validation and
construction, the one outbound request handed to the client has the CallSpec's
method and url, the CallSpec's body as payload when it is non-empty and no
payload when it is empty, and exactly the header `Content-Type:
application/json`; every other inbound POST request that decodes to the same
CallSpec (whatever its headers, target or body bytes) produces the same
outbound request. -/
theorem construct_outbound_request (env : Env) (r : Request) (req : apiRequest)
    (out : OutRequest)
    (h : r.Method = str "POST") (hd : Decode r.Body = .ok req)
    (hm : req.Method ≠ []) (hu : req.URL ≠ [])
    (hc : NewRequest env req.Method req.URL (payload req) = .ok out) :
    (apiHandler env r).calls.map Prod.snd
        = [{ Method := req.Method, URL := req.URL,
             Body := if req.Body = [] then none else some req.Body,
             Header := [(str "Content-Type", str "application/json")] }]
      ∧ ∀ r2 : Request, r2.Method = str "POST" → Decode r2.Body = .ok req →
          (apiHandler env r2).calls = (apiHandler env r).calls := by
  have key : ∀ r2 : Request, r2.Method = str "POST" → Decode r2.Body = .ok req →
      (apiHandler env r2).calls = [(theClient, outbound req)] :=
    fun r2 h2 hd2 => calls_eq env r2 req out h2 hd2 hm hu hc
  constructor
  · rw [key r h hd]
    by_cases hb : req.Body = [] <;> simp [outbound, payload, hb]
  · intro r2 h2 hd2
    rw [key r h hd, key r2 h2 hd2]

/-- C5 at a CallSpec with a payload: `PUT https://example.test/ok` with body `{"a":1}`. -/
theorem construct_outbound_request_witness :
    (apiHandler sampleEnv (post payloadBody)).calls.map Prod.snd
        = [{ Method := str "PUT", URL := str "https://example.test/ok",
             Body := some (str "\x7b\"a\":1\x7d"),
             Header := [(str "Content-Type", str "application/json")] }]
      ∧ (apiHandler sampleEnv { post payloadBody with Header := [], URL := str "/api?x=1" }).calls
          = (apiHandler sampleEnv (post payloadBody)).calls :=
  have w := construct_outbound_request sampleEnv (post payloadBody)
    { Method := str "PUT", URL := str "https://example.test/ok", Body := str "\x7b\"a\":1\x7d" }
    { Method := str "PUT", URL := str "https://example.test/ok", Body := some (str "\x7b\"a\":1\x7d"),
      Header := [] }
    (by decide) (by rfl) (by decide) (by decide) (by rfl)
  ⟨w.1, w.2 { post payloadBody with Header := [], URL := str "/api?x=1" } (by decide) (by rfl)⟩

/-- C7: for every inbound POST request whose CallSpec has non-empty method and url and
for which `http.NewRequest` fails with error text `err`, the handler answers
400, the response body is `{"error":"` + `err` + `"}` and a line feed (so it
contains `err`), and no outbound call is executed. -/
theorem construct_failure_is_bad_request (env : Env) (r : Request) (req : apiRequest)
    (err : Bytes)
    (h : r.Method = str "POST") (hd : Decode r.Body = .ok req)
    (hm : req.Method ≠ []) (hu : req.URL ≠ [])
    (hc : NewRequest env req.Method req.URL (payload req) = .error err) :
    (response env r).status = 400
      ∧ (response env r).body = str "\x7b\"error\":\"" ++ err ++ str "\"\x7d" ++ [10]
      ∧ List.IsInfix err (response env r).body
      ∧ (apiHandler env r).calls = [] := by
  obtain ⟨h1, h2⟩ := response_constructError env r req err h hd hm hu hc
  rw [h1]
  exact ⟨rfl, rfl, isInfix_msgError err, h2⟩

/-- C7 at the url `::::`, whose parse error is `parse "::::": missing protocol scheme`;
the method `GE T` is an example of an unsupported method token. -/
theorem construct_failure_is_bad_request_witness :
    NewRequest sampleEnv (str "GET") (str "::::") none
        = .error (str "parse \"::::\": missing protocol scheme")
      ∧ NewRequest sampleEnv (str "GE T") (str "https://example.test/ok") none
        = .error (str "net/http: invalid method \"GE T\"")
      ∧ (response sampleEnv (post badUrlBody)).status = 400
      ∧ (response sampleEnv (post badUrlBody)).body
          = str "\x7b\"error\":\"" ++ str "parse \"::::\": missing protocol scheme" ++ str "\"\x7d"
            ++ [10]
      ∧ List.IsInfix (str "parse \"::::\": missing protocol scheme")
          (response sampleEnv (post badUrlBody)).body
      ∧ (apiHandler sampleEnv (post badUrlBody)).calls = [] :=
  ⟨by rfl, by rfl,
    construct_failure_is_bad_request sampleEnv (post badUrlBody)
      { Method := str "GET", URL := str "::::", Body := [] }
      (str "parse \"::::\": missing protocol scheme")
      (by decide) (by rfl) (by decide) (by decide) (by rfl)⟩

/-! ## Execute -/

/-- C8: for every inbound POST request whose outbound request was constructed and
whose execution by the client fails with error text `err` (the client is
always configured with a timeout of 10 seconds, whatever the CallSpec), the
handler answers 502, the response body is `{"error":"` + `err` + `"}` and a
line feed (so it contains `err`, and nothing of an upstream body), and the one
call it made used that client. -/
theorem execute_failure_is_bad_gateway (env : Env) (r : Request) (req : apiRequest)
    (out : OutRequest) (err : Bytes)
    (h : r.Method = str "POST") (hd : Decode r.Body = .ok req)
    (hm : req.Method ≠ []) (hu : req.URL ≠ [])
    (hc : NewRequest env req.Method req.URL (payload req) = .ok out)
    (hx : env.Do { Timeout := 10000000000 } (outbound req) = .error err) :
    (response env r).status = 502
      ∧ (response env r).body = str "\x7b\"error\":\"" ++ err ++ str "\"\x7d" ++ [10]
      ∧ List.IsInfix err (response env r).body
      ∧ (apiHandler env r).calls = [({ Timeout := 10000000000 }, outbound req)] := by
  have ho := outbound_eq env req out hm hc
  have hx2 : env.Do theClient { out with
      Header := Header.Set out.Header (str "Content-Type") (str "application/json") }
        = .error err := by
    rw [ho]
    exact hx
  obtain ⟨h1, h2⟩ := response_doError env r req out err h hd hm hu hc hx2
  rw [h1, h2, ho]
  exact ⟨rfl, rfl, isInfix_msgError err, rfl⟩

/-- C8 at the spec's CallSpec with an upstream that cannot be reached. -/
theorem execute_failure_is_bad_gateway_witness :
    (response downEnv (post okBody)).status = 502
      ∧ (response downEnv (post okBody)).body
          = str "\x7b\"error\":\"" ++ str "Get \"https://example.test/ok\": EOF" ++ str "\"\x7d" ++ [10]
      ∧ List.IsInfix (str "Get \"https://example.test/ok\": EOF")
          (response downEnv (post okBody)).body
      ∧ (apiHandler downEnv (post okBody)).calls
          = [({ Timeout := 10000000000 },
              outbound { Method := str "GET", URL := str "https://example.test/ok", Body := [] })] :=
  execute_failure_is_bad_gateway downEnv (post okBody)
    { Method := str "GET", URL := str "https://example.test/ok", Body := [] }
    { Method := str "GET", URL := str "https://example.test/ok", Body := none, Header := [] }
    (str "Get \"https://example.test/ok\": EOF")
    (by decide) (by rfl) (by decide) (by decide) (by rfl) (by rfl)

/-! ## Relay -/

/-- C4: for every inbound POST request whose CallSpec is valid and whose outbound call
completes with upstream status `s`, upstream headers `hdr` and upstream body
bytes `b`, the response has status 200 and body exactly `b`; the whole response
is determined by `b` alone, so it does not depend on `s`. -/
theorem relay_is_verbatim (env : Env) (r : Request) (req : apiRequest) (out : OutRequest)
    (s : Nat) (hdr : Header) (b : Bytes)
    (h : r.Method = str "POST") (hd : Decode r.Body = .ok req)
    (hm : req.Method ≠ []) (hu : req.URL ≠ [])
    (hc : NewRequest env req.Method req.URL (payload req) = .ok out)
    (hx : env.Do { Timeout := 10000000000 } (outbound req)
      = .ok { StatusCode := s, Header := hdr, Body := b }) :
    (response env r).status = 200
      ∧ (response env r).body = b
      ∧ response env r
          = { status := 200, header := [(str "Content-Type", str "application/json")],
              body := b } := by
  have ho := outbound_eq env req out hm hc
  have hx2 : env.Do theClient { out with
      Header := Header.Set out.Header (str "Content-Type") (str "application/json") }
        = .ok { StatusCode := s, Header := hdr, Body := b } := by
    rw [ho]
    exact hx
  rw [(response_relay env r req out _ h hd hm hu hc hx2).1]
  exact ⟨rfl, rfl, rfl⟩

/-- C4 at the spec's example: method GET, url `https://example.test/ok`, upstream
status 200 and body `{"x":1}` give status 200 and body `{"x":1}`. -/
theorem relay_is_verbatim_witness :
    Decode okBody = .ok { Method := str "GET", URL := str "https://example.test/ok", Body := [] }
      ∧ (response sampleEnv (post okBody)).status = 200
      ∧ (response sampleEnv (post okBody)).body = str "\x7b\"x\":1\x7d"
      ∧ response sampleEnv (post okBody)
          = { status := 200, header := [(str "Content-Type", str "application/json")],
              body := str "\x7b\"x\":1\x7d" } :=
  ⟨by rfl,
    relay_is_verbatim sampleEnv (post okBody)
      { Method := str "GET", URL := str "https://example.test/ok", Body := [] }
      { Method := str "GET", URL := str "https://example.test/ok", Body := none, Header := [] }
      200 [(str "Content-Type", str "text/html")] (str "\x7b\"x\":1\x7d")
      (by decide) (by rfl) (by decide) (by decide) (by rfl) (by rfl)⟩

/-! ## The pipeline as a whole -/

/-- C10: for every inbound request the handler executes the outbound call at most once,
and exactly once if and only if the inbound method is POST, the body decodes,
method and url are both non-empty and request construction succeeds. When an
earlier stage fails, the response is that stage's error, a value that depends
on nothing a later stage does: 405 for a method other than POST whatever the
body; the "invalid JSON" error when decoding fails; the "method and url are
required" error when a field is empty; the construction error when
`http.NewRequest` fails; and in the first three cases the response is the same
in every environment, with no outbound call. -/
theorem pipeline_short_circuits (env : Env) (r : Request) :
    (apiHandler env r).calls.length ≤ 1
      ∧ ((apiHandler env r).calls.length = 1 ↔
          (r.Method = str "POST" ∧ ∃ req, Decode r.Body = .ok req ∧ req.Method ≠ []
            ∧ req.URL ≠ [] ∧ ∃ out, NewRequest env req.Method req.URL (payload req) = .ok out))
      ∧ (r.Method ≠ str "POST" →
          response env r = errorResponse (str "\x7b\"error\":\"only POST allowed\"\x7d") 405)
      ∧ (r.Method = str "POST" → ∀ e, Decode r.Body = .error e →
          response env r = errorResponse (str "\x7b\"error\":\"invalid JSON\"\x7d") 400)
      ∧ (r.Method = str "POST" → ∀ req, Decode r.Body = .ok req →
          (req.Method = [] ∨ req.URL = []) →
          response env r = errorResponse (str "\x7b\"error\":\"method and url are required\"\x7d") 400)
      ∧ (r.Method = str "POST" → ∀ req err, Decode r.Body = .ok req →
          req.Method ≠ [] → req.URL ≠ [] →
          NewRequest env req.Method req.URL (payload req) = .error err →
          response env r = errorResponse (str "\x7b\"error\":\"" ++ err ++ str "\"\x7d") 400)
      ∧ ((r.Method ≠ str "POST" ∨ (∃ e, Decode r.Body = .error e)
            ∨ ∃ req, Decode r.Body = .ok req ∧ (req.Method = [] ∨ req.URL = [])) →
          ∀ env2, response env2 r = response env r ∧ (apiHandler env2 r).calls = []) := by
  refine ⟨?_, ?_, ?_, ?_, ?_, ?_, ?_⟩
  · rcases calls_cases env r with h0 | ⟨h, req, hd, hm, hu, out, hc⟩
    · rw [h0]
      exact Nat.zero_le 1
    · rw [calls_eq env r req out h hd hm hu hc]
      exact Nat.le_refl 1
  · constructor
    · intro hl
      rcases calls_cases env r with h0 | hr
      · rw [h0] at hl
        cases hl
      · exact hr
    · rintro ⟨h, req, hd, hm, hu, out, hc⟩
      rw [calls_eq env r req out h hd hm hu hc]
      rfl
  · exact fun h => (response_notPost env r h).1
  · exact fun h e hd => (response_decodeError env r e h hd).1
  · exact fun h req hd hv => (response_required env r req h hd hv).1
  · exact fun h req err hd hm hu hc => (response_constructError env r req err h hd hm hu hc).1
  · intro hs env2
    by_cases h : r.Method = str "POST"
    · rcases hs with hn | ⟨e, hd⟩ | ⟨req, hd, hv⟩
      · exact absurd h hn
      · rw [(response_decodeError env r e h hd).1, (response_decodeError env2 r e h hd).1]
        exact ⟨rfl, (response_decodeError env2 r e h hd).2⟩
      · rw [(response_required env r req h hd hv).1, (response_required env2 r req h hd hv).1]
        exact ⟨rfl, (response_required env2 r req h hd hv).2⟩
    · rw [(response_notPost env r h).1, (response_notPost env2 r h).1]
      exact ⟨rfl, (response_notPost env2 r h).2⟩

/-! ## Error bodies and content type -/

/-- C6 fails on the code: the inbound POST with CallSpec `{"method":"GET","url":"::::"}`
gets status 400 and the body `{"error":"parse "::::": missing protocol scheme"}`
plus a line feed, in which the quotes of the error text are not escaped: the
body is not well-formed JSON. -/
theorem construct_error_body_is_not_json :
    (response sampleEnv (post badUrlBody)).status = 400
      ∧ (response sampleEnv (post badUrlBody)).body
          = str "\x7b\"error\":\"parse \"::::\": missing protocol scheme\"\x7d\n"
      ∧ Valid (response sampleEnv (post badUrlBody)).body = false := by
  decide

/-- C9 fails on the code: on each of the five error paths (405, 400 invalid JSON, 400
missing field, 400 construction failure, 502 upstream failure) the response's
`Content-Type` is `text/plain; charset=utf-8`, which `http.Error` sets over the
handler's `application/json`. -/
theorem error_content_type_is_text_plain :
    Header.Get (response sampleEnv getRequest).header (str "Content-Type")
        = str "text/plain; charset=utf-8"
      ∧ Header.Get (response sampleEnv (post truncatedBody)).header (str "Content-Type")
        = str "text/plain; charset=utf-8"
      ∧ Header.Get (response sampleEnv (post noMethodBody)).header (str "Content-Type")
        = str "text/plain; charset=utf-8"
      ∧ Header.Get (response sampleEnv (post badUrlBody)).header (str "Content-Type")
        = str "text/plain; charset=utf-8"
      ∧ Header.Get (response downEnv (post okBody)).header (str "Content-Type")
        = str "text/plain; charset=utf-8"
      ∧ str "text/plain; charset=utf-8" ≠ str "application/json" := by
  decide

end GoApiExplorer
